import Mathlib

/-
  Shallow embedding of kixport.py, a KiCad build-pipeline orchestrator.
  Pure data reshaping (CSV header rewrite, zip packaging, PDF merge, path
  derivation, BOM invocation enumeration) is embedded as Lean functions;
  the sequential subprocess pipeline is embedded as a step list with an
  success oracle for the external tools.
-/

namespace Kixport

/-- Structured model of a pathlib.Path: directory part, stem, and suffix.
`with_suffix` replaces only the suffix, leaving parent and stem intact. -/
structure PPath where
  parent : String
  stem : String
  suffix : String
deriving DecidableEq, Repr

/-- pathlib.Path.with_suffix: replace the extension, keep parent and stem. -/
def PPath.withSuffix (p : PPath) (s : String) : PPath :=
  ⟨p.parent, p.stem, s⟩

/-- The final path component (pathlib.Path.name): stem plus suffix. -/
def PPath.fname (p : PPath) : String := p.stem ++ p.suffix

/-- A BOM variant descriptor from the configuration: a display name and a
variant-selector string, both optional (kixport.py line 142 uses the
literal dict with both set to None as the implicit variant). -/
structure Variant where
  name : Option String
  variant : Option String
deriving DecidableEq, Repr

/-- One entry of settings.outputs.kibom (kixport.py lines 140-147). -/
structure BomSpec where
  ini : String
  formats : List String
  file_id : String
deriving DecidableEq, Repr

/-- One entry of settings.outputs.fab (kixport.py lines 85-92). -/
structure FabSpec where
  name : String
  layers : String
  mirror : Bool
  include_border_title : Bool
deriving DecidableEq, Repr

/-- The Board dataclass (kixport.py lines 18-27). -/
structure Board where
  name : String
  kicad_pro : PPath
  kicad_sch : PPath
  kicad_pcb : PPath
  assembly_dir : String
  build_dir : String
  variants : Option (List Variant)
deriving DecidableEq, Repr

/-- A raw board record as read from YAML: each key may be absent.
Only the keys Board.from_yaml touches are modelled. -/
structure RawBoard where
  name : Option String
  kicad_pro : Option PPath
  variants : Option (List Variant)
deriving DecidableEq, Repr

/-- The settings keys Board.from_yaml touches, each possibly absent. -/
structure RawSettings where
  assembly_dir : Option String
  build_dir : Option String
deriving DecidableEq, Repr

/-- Look up a required key: a missing key raises KeyError in Python
(dict subscript), modelled as Except.error naming the key. -/
def getKey {α : Type} (key : String) (v : Option α) : Except String α :=
  match v with
  | some a => Except.ok a
  | none => Except.error ("KeyError: " ++ key)

/-- Board.from_yaml (kixport.py lines 29-39): evaluation order is
board[kicad_pro] (line 30), then board[name], then
settings[assembly_dir], then settings[build_dir]; variants uses
dict.get and never fails. -/
def fromYaml (board : RawBoard) (settings : RawSettings) : Except String Board :=
  match getKey "kicad_pro" board.kicad_pro with
  | Except.error e => Except.error e
  | Except.ok kicad_pro =>
    match getKey "name" board.name with
    | Except.error e => Except.error e
    | Except.ok nm =>
      match getKey "assembly_dir" settings.assembly_dir with
      | Except.error e => Except.error e
      | Except.ok ad =>
        match getKey "build_dir" settings.build_dir with
        | Except.error e => Except.error e
        | Except.ok bd =>
          Except.ok
            { name := nm
              kicad_pro := kicad_pro
              kicad_sch := kicad_pro.withSuffix ".kicad_sch"
              kicad_pcb := kicad_pro.withSuffix ".kicad_pcb"
              assembly_dir := ad ++ "/" ++ nm
              build_dir := bd ++ "/" ++ nm
              variants := board.variants }

/-- The header row mk_pos_jlcpcb writes (kixport.py line 118). -/
def jlcpcbHeader : List String :=
  ["Designator", "Val", "Package", "Mid X", "Mid y", "Rotation", "Layer"]

/-- mk_pos_jlcpcb (kixport.py lines 110-121) at the CSV-row level:
skip the input's first row, write the JLCPCB header, copy the rest. -/
def mkPosJlcpcb (rows : List (List String)) : List (List String) :=
  jlcpcbHeader :: rows.tail

/-- The effective variant list of build_board line 142:
Python truthiness makes `board.variants or [default]` fall back to the
single implicit variant when variants is None or an empty list. -/
def effVariants (variants : Option (List Variant)) : List Variant :=
  match variants with
  | none => [⟨none, none⟩]
  | some [] => [⟨none, none⟩]
  | some (v :: vs) => v :: vs

/-- The BOM output filename chosen in build_board lines 143-146; only
the variant-selector string of the variant dict is consulted. -/
def bomFilename (boardName : String) (sel : Option String) (fileId fmt : String) : String :=
  match sel with
  | some s => boardName ++ "-" ++ s ++ "-" ++ fileId ++ "." ++ fmt
  | none => boardName ++ "-" ++ fileId ++ "." ++ fmt

/-- The kibom command line built by run_kibom (kixport.py lines 72-80):
the variant selector -r is added only when the variant string is truthy
(neither None nor the empty string). -/
def kibomCmd (ini bomDir : String) (variant : Option String)
    (xml outName : String) : List String :=
  ["kibom", "--cfg", ini, "-d", bomDir]
    ++ (match variant with
        | some v => if v = "" then [] else ["-r", v]
        | none => [])
    ++ [xml, outName]

/-- One invocation of the BOM generator: the output filename placed in
the assembly directory and the full command line. -/
structure KibomCall where
  filename : String
  cmd : List String
deriving DecidableEq, Repr

/-- The BOM step of build_board (kixport.py lines 140-147): the ordered
list of kibom invocations over spec, format and effective variant. -/
def bomStep (boardName xml bomDir : String) (kibom : List BomSpec)
    (variants : Option (List Variant)) : List KibomCall :=
  kibom.flatMap (fun bom =>
    bom.formats.flatMap (fun fmt =>
      (effVariants variants).map (fun v =>
        let fn := bomFilename boardName v.variant bom.file_id fmt
        ⟨fn, kibomCmd bom.ini bomDir v.variant xml fn⟩)))

/-- Modelled from the spec wording of claim C2 (refinement side): one
invocation per spec, format and variant, named
boardName-sel-file_id.fmt with the -r selector, or without either when
the variant carries no selector. -/
def specBomCalls (boardName xml bomDir : String) (kibom : List BomSpec)
    (vs : List Variant) : List KibomCall :=
  kibom.flatMap (fun bom =>
    bom.formats.flatMap (fun fmt =>
      vs.map (fun v =>
        match v.variant with
        | some sel =>
          ⟨boardName ++ "-" ++ sel ++ "-" ++ bom.file_id ++ "." ++ fmt,
           ["kibom", "--cfg", bom.ini, "-d", bomDir, "-r", sel, xml,
            boardName ++ "-" ++ sel ++ "-" ++ bom.file_id ++ "." ++ fmt]⟩
        | none =>
          ⟨boardName ++ "-" ++ bom.file_id ++ "." ++ fmt,
           ["kibom", "--cfg", bom.ini, "-d", bomDir, xml,
            boardName ++ "-" ++ bom.file_id ++ "." ++ fmt]⟩)))

/-- A directory entry as seen by gerber_dir.iterdir(): the bare file
name and the file content. -/
structure DirEntry where
  name : String
  content : String
deriving DecidableEq, Repr

/-- mk_gerber_zip (kixport.py lines 66-70): every entry of the source
directory is written to the archive under arcname file_path.name, so
each archive member is the bare file name paired with its content. -/
def mkGerberZip (dir : List DirEntry) : List (String × String) :=
  dir.map (fun e => (e.name, e.content))

/-- The zip archive name chosen in build_board line 134. -/
def gerberZipName (boardName : String) : String :=
  boardName ++ "-gerber.zip"

/-- An abstract PDF page. -/
structure Page where
  id : Nat
deriving DecidableEq, Repr

/-- mk_fab_pdf (kixport.py lines 82-97) at the page level: starting from
an empty writer, append each per-spec exported PDF's pages in
configured-spec order; render gives the pages the external export
produces for each fab spec. -/
def mkFabPdf (render : FabSpec → List Page) (fabs : List FabSpec) : List Page :=
  fabs.foldl (fun writer fab => writer ++ render fab) []

/-- The observable pipeline steps of build_board, in program order. -/
inductive Step where
  | schematicPdf
  | gerberExport
  | drillExport
  | gerberZip
  | bomXml
  | kibom (filename : String)
  | fabExport (specName : String)
  | fabMerge
  | stepExport
  | posExport
  | posReshape
deriving DecidableEq, Repr

/-- The ordered step list of build_board (kixport.py lines 123-154). -/
def boardSteps (boardName xml bomDir : String) (kibom : List BomSpec)
    (variants : Option (List Variant)) (fabs : List FabSpec) : List Step :=
  [Step.schematicPdf, Step.gerberExport, Step.drillExport,
   Step.gerberZip, Step.bomXml]
  ++ (bomStep boardName xml bomDir kibom variants).map
       (fun c => Step.kibom c.filename)
  ++ fabs.map (fun f => Step.fabExport f.name)
  ++ [Step.fabMerge, Step.stepExport, Step.posExport, Step.posReshape]

/-- Run the steps in order against a success oracle: each step is
attempted exactly once; a failing step produces no artifact, is not
retried, and aborts the rest (subprocess.check_call raises and nothing
in kixport.py catches). Returns the completed steps and the failing
step, if any. -/
def runSteps (ok : Step → Bool) : List Step → List Step × Option Step
  | [] => ([], none)
  | s :: rest =>
    if ok s then
      let r := runSteps ok rest
      (s :: r.1, r.2)
    else ([], some s)

/-- One board job of main: a board name with its pipeline steps. -/
structure BoardJob where
  name : String
  steps : List Step
deriving Repr

/-- main (kixport.py lines 156-163): boards are built sequentially and
a failure propagates, aborting the builds of all later boards. Returns
the per-board completed steps and whether the run succeeded. -/
def runBoards (ok : Step → Bool) :
    List BoardJob → List (String × List Step) × Bool
  | [] => ([], true)
  | b :: rest =>
    let r := runSteps ok b.steps
    match r.2 with
    | some _ => ([(b.name, r.1)], false)
    | none =>
      let rr := runBoards ok rest
      ((b.name, r.1) :: rr.1, rr.2)

/-- A success oracle under which every external tool succeeds except
the Gerber export, which exits non-zero. -/
def okExceptGerber : Step → Bool := fun s =>
  match s with
  | Step.gerberExport => false
  | _ => true

/-- A nonempty declared variant list passes through Python truthiness
unchanged in build_board line 142. -/
theorem effVariants_of_ne (vs : List Variant) (h : vs ≠ []) :
    effVariants (some vs) = vs := by
  cases vs with
  | nil => exact absurd rfl h
  | cons v t => rfl

/-- Summing a constant over a list multiplies it by the length. -/
theorem sum_map_const {α : Type} (l : List α) (c : Nat) :
    (l.map (fun _ => c)).sum = l.length * c := by
  induction l with
  | nil => simp
  | cons a t ih => simp [ih, Nat.succ_mul, Nat.add_comm]

/-- Claim C1: mk_pos_jlcpcb writes the fixed canonical JLCPCB header as
the first output row, copies every input row but the first unchanged
(so every data cell is identical to its input cell), and for a
placement file with a header row the output row count equals the input
row count. -/
theorem mk_pos_jlcpcb_reshape (rows : List (List String)) (h : rows ≠ []) :
    (mkPosJlcpcb rows).head? = some jlcpcbHeader
    ∧ (mkPosJlcpcb rows).tail = rows.tail
    ∧ (mkPosJlcpcb rows).length = rows.length := by
  cases rows with
  | nil => exact absurd rfl h
  | cons r t => exact ⟨rfl, rfl, by simp [mkPosJlcpcb]⟩

/-- Witness for claim C1 at a concrete two-row placement export. -/
theorem mk_pos_jlcpcb_reshape_witness :
    (mkPosJlcpcb [["Ref", "Val"], ["C1", "10k"]]).head? = some jlcpcbHeader
    ∧ (mkPosJlcpcb [["Ref", "Val"], ["C1", "10k"]]).tail = [["C1", "10k"]]
    ∧ (mkPosJlcpcb [["Ref", "Val"], ["C1", "10k"]]).length = 2 :=
  mk_pos_jlcpcb_reshape [["Ref", "Val"], ["C1", "10k"]] (by decide)

/-- Claim C5 counterexample: at a concrete raw placement export the
twice-applied reshape equals the once-applied reshape, refuting the
claimed inequality; the row the second application drops is the
canonical header added by the first application, not a data row. -/
theorem mk_pos_jlcpcb_twice_counterexample :
    mkPosJlcpcb (mkPosJlcpcb
        [["Ref", "Val", "Package", "PosX", "PosY", "Rot", "Side"],
         ["C1", "10k", "0402", "1.0", "2.0", "90", "top"]])
      = mkPosJlcpcb
        [["Ref", "Val", "Package", "PosX", "PosY", "Rot", "Side"],
         ["C1", "10k", "0402", "1.0", "2.0", "90", "top"]] := rfl

/-- Claim C5 amended: the placement reshape is idempotent at the
CSV-row level: applying it a second time drops the canonical header the
first application wrote and writes it back, so the twice-applied output
equals the once-applied output and no data row is lost. -/
theorem mk_pos_jlcpcb_idempotent (rows : List (List String)) :
    mkPosJlcpcb (mkPosJlcpcb rows) = mkPosJlcpcb rows := rfl

/-- Claim C4: for every valid board record, the derived schematic and
layout paths keep the project file's parent and stem and change only
the extension, and the assembly and build directories are the
configured roots joined with the board name. -/
theorem board_paths_derived (nm : String) (kp : PPath) (ad bd : String)
    (vs : Option (List Variant)) :
    ∃ b : Board,
      fromYaml ⟨some nm, some kp, vs⟩ ⟨some ad, some bd⟩ = Except.ok b
      ∧ b.kicad_sch.parent = kp.parent ∧ b.kicad_sch.stem = kp.stem
      ∧ b.kicad_sch.suffix = ".kicad_sch"
      ∧ b.kicad_pcb.parent = kp.parent ∧ b.kicad_pcb.stem = kp.stem
      ∧ b.kicad_pcb.suffix = ".kicad_pcb"
      ∧ b.assembly_dir = ad ++ "/" ++ nm
      ∧ b.build_dir = bd ++ "/" ++ nm := by
  refine ⟨_, rfl, ?_, ?_, ?_, ?_, ?_, ?_, ?_, ?_⟩ <;> rfl

/-- Claim C8 counterexample: a raw record that has the project-file
path but lacks the name key still makes Board.from_yaml fail (Python
raises KeyError on board[name]), refuting that a missing project-file
path is the only failure cause. -/
theorem from_yaml_fails_despite_kicad_pro :
    fromYaml ⟨none, some ⟨"hw", "demo", ".kicad_pro"⟩, none⟩
        ⟨some "assembly", some "build"⟩
      = Except.error "KeyError: name"
    ∧ (RawBoard.mk none (some ⟨"hw", "demo", ".kicad_pro"⟩) none).kicad_pro.isSome
      = true :=
  ⟨rfl, rfl⟩

/-- Claim C8 amended: Board.from_yaml is a pure function (no I/O in the
embedding, mirroring the source, which only builds paths and reads
dict keys) and it succeeds exactly when the record has the project-file
path and the name and the settings have both output roots; a missing
variants key never makes it fail. -/
theorem from_yaml_ok_iff (b : RawBoard) (s : RawSettings) :
    (∃ bd, fromYaml b s = Except.ok bd)
      ↔ (b.kicad_pro.isSome ∧ b.name.isSome
          ∧ s.assembly_dir.isSome ∧ s.build_dir.isSome) := by
  obtain ⟨nm, kp, vs⟩ := b
  obtain ⟨ad, bd⟩ := s
  cases kp <;> cases nm <;> cases ad <;> cases bd <;>
    simp [fromYaml, getKey]

/-- Claim C6: the Gerber zip's members are exactly the files of the
source directory, each stored at the archive's top level under its
bare file name with unchanged content, and the archive is named after
the board. -/
theorem gerber_zip_exact (d : List DirEntry) (bn : String) :
    (mkGerberZip d).map Prod.fst = d.map DirEntry.name
    ∧ (∀ n c, (n, c) ∈ mkGerberZip d ↔ DirEntry.mk n c ∈ d)
    ∧ gerberZipName bn = bn ++ "-gerber.zip" := by
  refine ⟨?_, ?_, rfl⟩
  · simp [mkGerberZip, List.map_map, Function.comp_def]
  · intro n c
    simp only [mkGerberZip, List.mem_map]
    constructor
    · rintro ⟨e, he, heq⟩
      have h1 : e.name = n := congrArg Prod.fst heq
      have h2 : e.content = c := congrArg Prod.snd heq
      subst h1
      subst h2
      exact he
    · intro hm
      exact ⟨⟨n, c⟩, hm, rfl⟩

/-- Folding page-append over fab specs appends the flattened pages. -/
theorem foldl_append_flatten (render : FabSpec → List Page) :
    ∀ (fabs : List FabSpec) (acc : List Page),
      fabs.foldl (fun w f => w ++ render f) acc
        = acc ++ (fabs.map render).flatten := by
  intro fabs
  induction fabs with
  | nil => intro acc; simp
  | cons f t ih => intro acc; simp [List.foldl_cons, ih]

/-- Claim C7: the merged fabrication PDF is the concatenation of the
per-spec PDFs' pages in configured-spec order, each multi-page input
appended whole before the next spec's pages, so its page count is the
sum of the per-spec page counts. -/
theorem fab_pdf_merge_pages (render : FabSpec → List Page) (fabs : List FabSpec) :
    mkFabPdf render fabs = (fabs.map render).flatten
    ∧ (mkFabPdf render fabs).length
      = (fabs.map (fun f => (render f).length)).sum := by
  have h : mkFabPdf render fabs = (fabs.map render).flatten := by
    simpa [mkFabPdf] using foldl_append_flatten render fabs []
  refine ⟨h, ?_⟩
  rw [h]
  simp [List.length_flatten, List.map_map, Function.comp_def]

/-- Claim C2: the BOM step performs exactly one generator invocation
per configured spec, requested format and declared variant, named
boardName-selector-file_id.fmt with the -r selector passed; with no
declared variants a single implicit no-filter variant is used, the
filename omits the variant component and the -r selector is omitted
from the command. -/
theorem bom_step_once_per_triple (boardName xml bomDir : String)
    (kibom : List BomSpec) (vs : List Variant)
    (hne : vs ≠ []) (hsel : ∀ v ∈ vs, v.variant ≠ some "") :
    bomStep boardName xml bomDir kibom (some vs)
      = specBomCalls boardName xml bomDir kibom vs
    ∧ bomStep boardName xml bomDir kibom none
      = specBomCalls boardName xml bomDir kibom [⟨none, none⟩]
    ∧ (bomStep boardName xml bomDir kibom (some vs)).length
      = (kibom.map (fun bom => bom.formats.length * vs.length)).sum := by
  have hev : effVariants (some vs) = vs := effVariants_of_ne vs hne
  have h1 : bomStep boardName xml bomDir kibom (some vs)
      = specBomCalls boardName xml bomDir kibom vs := by
    unfold bomStep specBomCalls
    rw [hev]
    exact congrArg (List.flatMap kibom) (funext fun bom =>
      congrArg (List.flatMap bom.formats) (funext fun fmt =>
        List.map_congr_left (fun v hv => by
          cases hvv : v.variant with
          | none => simp [bomFilename, kibomCmd, hvv]
          | some sel =>
            have hs : ¬ sel = "" := fun he => (hsel v hv) (he ▸ hvv)
            simp [bomFilename, kibomCmd, hvv, hs])))
  refine ⟨h1, rfl, ?_⟩
  simp only [bomStep, hev, List.length_flatMap, List.map_map,
    Function.comp_def, List.length_map]
  refine congrArg List.sum (List.map_congr_left fun bom _ => ?_)
  exact sum_map_const bom.formats vs.length

/-- Witness for claim C2 at the spec's end-to-end scenario: two
declared variants and one BOM spec with two formats give exactly the
four named invocations, two times two of them. -/
theorem bom_step_once_per_triple_witness :
    bomStep "brd" "brd-bom.xml" "out" [⟨"bom.ini", ["csv", "html"], "bom"⟩]
        (some [⟨some "An", some "A"⟩, ⟨some "Bn", some "B"⟩])
      = specBomCalls "brd" "brd-bom.xml" "out" [⟨"bom.ini", ["csv", "html"], "bom"⟩]
          [⟨some "An", some "A"⟩, ⟨some "Bn", some "B"⟩]
    ∧ bomStep "brd" "brd-bom.xml" "out" [⟨"bom.ini", ["csv", "html"], "bom"⟩] none
      = specBomCalls "brd" "brd-bom.xml" "out" [⟨"bom.ini", ["csv", "html"], "bom"⟩]
          [⟨none, none⟩]
    ∧ (bomStep "brd" "brd-bom.xml" "out" [⟨"bom.ini", ["csv", "html"], "bom"⟩]
        (some [⟨some "An", some "A"⟩, ⟨some "Bn", some "B"⟩])).length
      = ([(⟨"bom.ini", ["csv", "html"], "bom"⟩ : BomSpec)].map
          (fun bom => bom.formats.length
            * ([⟨some "An", some "A"⟩, ⟨some "Bn", some "B"⟩] : List Variant).length)).sum :=
  bom_step_once_per_triple "brd" "brd-bom.xml" "out"
    [⟨"bom.ini", ["csv", "html"], "bom"⟩]
    [⟨some "An", some "A"⟩, ⟨some "Bn", some "B"⟩]
    (by decide) (by decide)

/-- Mapping a function that reads only the selector factors through the
selector list. -/
theorem map_variant_factor (g : Option String → KibomCall) (l1 l2 : List Variant)
    (h : l1.map Variant.variant = l2.map Variant.variant) :
    l1.map (fun v => g v.variant) = l2.map (fun v => g v.variant) := by
  have e1 : l1.map (fun v => g v.variant) = (l1.map Variant.variant).map g := by
    simp [List.map_map, Function.comp_def]
  have e2 : l2.map (fun v => g v.variant) = (l2.map Variant.variant).map g := by
    simp [List.map_map, Function.comp_def]
  rw [e1, e2, h]

/-- Equal selector lists give equal selector lists after the implicit
variant fallback of build_board line 142. -/
theorem effVariants_map_variant (vs1 vs2 : List Variant)
    (h : vs1.map Variant.variant = vs2.map Variant.variant) :
    (effVariants (some vs1)).map Variant.variant
      = (effVariants (some vs2)).map Variant.variant := by
  cases vs1 with
  | nil =>
    cases vs2 with
    | nil => rfl
    | cons b t => simp at h
  | cons a t =>
    cases vs2 with
    | nil => simp at h
    | cons b t2 => simpa [effVariants] using h

/-- Claim C9: the BOM pipeline reads only each variant's selector
string, never its name: two declared variant lists with the same
selectors produce identical generator invocations and identical output
filenames, so the filename's variant component is the selector. -/
theorem variant_name_unused (boardName xml bomDir : String) (kibom : List BomSpec)
    (vs1 vs2 : List Variant)
    (h : vs1.map Variant.variant = vs2.map Variant.variant) :
    bomStep boardName xml bomDir kibom (some vs1)
      = bomStep boardName xml bomDir kibom (some vs2) := by
  unfold bomStep
  exact congrArg (List.flatMap kibom) (funext fun bom =>
    congrArg (List.flatMap bom.formats) (funext fun fmt =>
      map_variant_factor
        (fun sel =>
          { filename := bomFilename boardName sel bom.file_id fmt
            cmd := kibomCmd bom.ini bomDir sel xml
              (bomFilename boardName sel bom.file_id fmt) })
        (effVariants (some vs1)) (effVariants (some vs2))
        (effVariants_map_variant vs1 vs2 h)))

/-- Witness for claim C9: two variants that differ only in their name
field yield the same BOM invocations. -/
theorem variant_name_unused_witness :
    bomStep "brd" "brd-bom.xml" "out" [⟨"bom.ini", ["csv"], "bom"⟩]
        (some [⟨some "first", some "A"⟩])
      = bomStep "brd" "brd-bom.xml" "out" [⟨"bom.ini", ["csv"], "bom"⟩]
        (some [⟨some "second", some "A"⟩]) :=
  variant_name_unused "brd" "brd-bom.xml" "out" [⟨"bom.ini", ["csv"], "bom"⟩]
    [⟨some "first", some "A"⟩] [⟨some "second", some "A"⟩] (by decide)

/-- flatMap over singleton results is map. -/
theorem flatMap_singleton {α β : Type} (l : List α) (g : α → β) :
    l.flatMap (fun x => [g x]) = l.map g := by
  induction l with
  | nil => rfl
  | cons a t ih => simp only [List.flatMap_cons, List.map_cons, ih]; rfl

/-- Claim C10: a board whose variants key is an empty list behaves
exactly like a board with no variants key: Python truthiness sends both
to the single implicit no-filter variant, giving one invocation per
spec and format, named without a variant component and carrying no -r
selector. -/
theorem empty_variants_implicit (boardName xml bomDir : String)
    (kibom : List BomSpec) :
    bomStep boardName xml bomDir kibom (some [])
      = bomStep boardName xml bomDir kibom none
    ∧ bomStep boardName xml bomDir kibom none
      = kibom.flatMap (fun bom => bom.formats.map (fun fmt =>
          { filename := boardName ++ "-" ++ bom.file_id ++ "." ++ fmt
            cmd := ["kibom", "--cfg", bom.ini, "-d", bomDir, xml,
                    boardName ++ "-" ++ bom.file_id ++ "." ++ fmt] })) := by
  refine ⟨rfl, ?_⟩
  unfold bomStep
  refine congrArg (List.flatMap kibom) (funext fun bom => ?_)
  have hmap : ∀ fmt : String,
      (effVariants none).map (fun v =>
        let fn := bomFilename boardName v.variant bom.file_id fmt
        (⟨fn, kibomCmd bom.ini bomDir v.variant xml fn⟩ : KibomCall))
      = [{ filename := boardName ++ "-" ++ bom.file_id ++ "." ++ fmt
           cmd := ["kibom", "--cfg", bom.ini, "-d", bomDir, xml,
                   boardName ++ "-" ++ bom.file_id ++ "." ++ fmt] }] :=
    fun fmt => rfl
  calc bom.formats.flatMap (fun fmt =>
        (effVariants none).map (fun v =>
          let fn := bomFilename boardName v.variant bom.file_id fmt
          (⟨fn, kibomCmd bom.ini bomDir v.variant xml fn⟩ : KibomCall)))
      = bom.formats.flatMap (fun fmt =>
          [{ filename := boardName ++ "-" ++ bom.file_id ++ "." ++ fmt
             cmd := ["kibom", "--cfg", bom.ini, "-d", bomDir, xml,
                     boardName ++ "-" ++ bom.file_id ++ "." ++ fmt] }]) := by
        exact congrArg (List.flatMap bom.formats) (funext hmap)
    _ = bom.formats.map (fun fmt =>
          { filename := boardName ++ "-" ++ bom.file_id ++ "." ++ fmt
            cmd := ["kibom", "--cfg", bom.ini, "-d", bomDir, xml,
                    boardName ++ "-" ++ bom.file_id ++ "." ++ fmt] }) :=
        flatMap_singleton bom.formats _

/-- Claim C3: with the Gerber export failing and the schematic export
succeeding, the pipeline completes only the schematic PDF: the zip is
never created, no BOM, fabrication-PDF, STEP or placement step runs,
no step is retried, the failure propagates uncaught, and every board
after the failing one is never built. -/
theorem gerber_failure_aborts_pipeline (ok : Step → Bool)
    (boardName xml bomDir : String) (kibom : List BomSpec)
    (variants : Option (List Variant)) (fabs : List FabSpec)
    (rest : List BoardJob)
    (hpdf : ok Step.schematicPdf = true)
    (hfail : ok Step.gerberExport = false) :
    runSteps ok (boardSteps boardName xml bomDir kibom variants fabs)
      = ([Step.schematicPdf], some Step.gerberExport)
    ∧ Step.gerberZip ∉
        (runSteps ok (boardSteps boardName xml bomDir kibom variants fabs)).1
    ∧ runBoards ok
        (⟨boardName, boardSteps boardName xml bomDir kibom variants fabs⟩ :: rest)
      = ([(boardName, [Step.schematicPdf])], false) := by
  have h1 : runSteps ok (boardSteps boardName xml bomDir kibom variants fabs)
      = ([Step.schematicPdf], some Step.gerberExport) := by
    simp [boardSteps, runSteps, hpdf, hfail]
  refine ⟨h1, ?_, ?_⟩
  · rw [h1]; simp
  · simp [runBoards, h1]

/-- Witness for claim C3: under the oracle failing exactly the Gerber
export, a concrete board completes only its schematic PDF and the next
board is never built. -/
theorem gerber_failure_aborts_pipeline_witness :
    runSteps okExceptGerber (boardSteps "brd" "brd-bom.xml" "out" [] none [])
      = ([Step.schematicPdf], some Step.gerberExport)
    ∧ Step.gerberZip ∉
        (runSteps okExceptGerber (boardSteps "brd" "brd-bom.xml" "out" [] none [])).1
    ∧ runBoards okExceptGerber
        (⟨"brd", boardSteps "brd" "brd-bom.xml" "out" [] none []⟩
          :: [⟨"nextBoard", []⟩])
      = ([("brd", [Step.schematicPdf])], false) :=
  gerber_failure_aborts_pipeline okExceptGerber "brd" "brd-bom.xml" "out"
    [] none [] [⟨"nextBoard", []⟩] rfl rfl

end Kixport
